import Mathlib

/-!
Shallow embedding of the classification-and-safe-reorganization pipeline of the
CardiologySuiteApp repository, covering:

  * `scripts/edu_blob_organizer/classifiers.py`   (heuristic tag classifier)
  * `scripts/edu_blob_organizer/organize_blobs.py` (destination resolver, safe
    mover, audit ledger, pipeline driver)
  * `scripts/edu_blob_organizer/azure_clients.py` (capability probe)
  * `scripts/blob-filename-normalizer.py`          (checksum-verified mover)

The remote blob store is modelled as an association list from blob names to
blob values (content string plus tag mapping).  The external store primitives
(copy, delete, set-tags, rename, create-directory) are modelled explicitly and
every mutating call is additionally recorded in a trace, so that "no mutating
primitive was invoked" is a provable statement.  The server-side copy primitive
is asynchronous in the source and is never awaited by the organizer, so the
content that materialises at the destination is modelled by a parameter
`copyOf : String -> String` (identity = faithful copy, anything else = a
corrupted / truncated transfer).  Content checksums (MD5 in the source) are
modelled by a parameter `chk : String -> Option String` (`none` = the checksum
computation failed), since the checksum routine is an external collaborator.
-/

/-! ## String helpers (executable stand-ins for the Python string methods) -/

/-- `isPrefixOfList p l` : does char list `p` occur at the head of `l`? -/
def isPrefixOfList : List Char → List Char → Bool
  | [], _ => true
  | _ :: _, [] => false
  | a :: as, b :: bs => a == b && isPrefixOfList as bs

/-- Does `needle` occur as a contiguous sublist of the haystack? -/
def containsAux (needle : List Char) : List Char → Bool
  | [] => needle.isEmpty
  | c :: rest => isPrefixOfList needle (c :: rest) || containsAux needle rest

/-- Python `pat in s` (substring containment). -/
def strContains (s pat : String) : Bool :=
  containsAux pat.toList s.toList

/-- Python `s.lower()` (ASCII-adequate, as all keywords in the source are ASCII). -/
def lowerStr (s : String) : String :=
  String.mk (s.toList.map Char.toLower)

/-- Python `s.replace("-", "")`. -/
def dropDashes (s : String) : String :=
  String.mk (s.toList.filter (fun c => c != '-'))

/-- Python `s.replace(" ", "_")`. -/
def spacesToUnderscores (s : String) : String :=
  String.mk (s.toList.map (fun c => if c == ' ' then '_' else c))

/-- Drop leading whitespace characters. -/
def dropLeadingWs : List Char → List Char
  | [] => []
  | c :: cs => if c.isWhitespace then dropLeadingWs cs else c :: cs

/-- Python `s.strip()`. -/
def stripStr (s : String) : String :=
  String.mk ((dropLeadingWs (dropLeadingWs s.toList).reverse).reverse)

/-- Accumulator for `lastComponent`: keep the chars seen since the last `/`. -/
def lastComponentAux (acc : List Char) : List Char → List Char
  | [] => acc
  | c :: cs => if c == '/' then lastComponentAux [] cs else lastComponentAux (acc ++ [c]) cs

/-- Python `os.path.basename` / `name.split("/")[-1]`: the part after the last slash. -/
def lastComponent (s : String) : String :=
  String.mk (lastComponentAux [] s.toList)

/-- Python `"/".join(name.split("/")[:-1])`: the part before the last slash, `""` if none. -/
def dirName (s : String) : String :=
  match (s.toList.reverse.dropWhile (fun c => c != '/')) with
  | [] => ""
  | _ :: rest => String.mk rest.reverse

/-- Python `name.endswith("/")`. -/
def endsWithSlash (s : String) : Bool :=
  match s.toList.reverse with
  | [] => false
  | c :: _ => c == '/'

/-- Python `data.startswith(b"%PDF")`. -/
def startsWithPDF (s : String) : Bool :=
  isPrefixOfList "%PDF".toList s.toList

/-! ## Tag sets

A Python dict of string keys/values, in insertion order.  Lookup returns the
first binding, as dict keys are unique in the source. -/

abbrev TagSet := List (String × String)

/-- Python `tags.get(k, d)`. -/
def tgetD (tags : TagSet) (k d : String) : String :=
  match tags.find? (fun kv => kv.1 == k) with
  | some kv => kv.2
  | none => d

/-- Python `tags.get(k)` (default `None`). -/
def tgetOpt (tags : TagSet) (k : String) : Option String :=
  (tags.find? (fun kv => kv.1 == k)).map (fun kv => kv.2)

/-! ## classifiers.py -/

/-- `CONDITIONS` from `classifiers.py`. -/
def CONDITIONS : List String :=
  ["ACS", "STEMI", "NSTEMI", "OMI", "AF", "HF", "HCM", "valvular", "pericarditis",
   "syncope", "hypertension", "PAD", "EP", "congenital", "cardiology_general"]

/-- `SOURCE_ORGS` from `classifiers.py`. -/
def SOURCE_ORGS : List String :=
  ["ACC", "AHA", "ESC", "NEJM", "JAMA", "Lancet", "Goldman-Cecil", "CIS", "internal"]

/-- Python `any(k in base for k in ks)`. -/
def containsAny (base : String) (ks : List String) : Bool :=
  ks.any (fun k => strContains base k)

/-- The docType `if/elif` chain of `classify` (lines 93-120): first component of
the result is `doc_type`, second is `evidence_level`, third is the `source_org`
assignment made inside the chain (only the textbook branch sets one). -/
def docTypeHeuristic (base : String) : String × String × String :=
  if containsAny base ["guideline", "guidelines"] then ("guideline", "guideline", "")
  else if containsAny base ["slide", "deck", "ppt", "keynote"] then ("slide_deck", "", "")
  else if containsAny base ["textbook", "chapter", "goldman", "cecil"] then
    ("textbook_chapter", "", "Goldman-Cecil")
  else if containsAny base ["rct", "randomized", "randomised", "trial"] then
    ("article_RCT", "RCT", "")
  else if containsAny base ["review", "meta-analysis", "metaanalysis", "systematic"] then
    ("review", "review", "")
  else if containsAny base ["protocol", "handout", "workflow", "pathway"] then
    ("protocol_handout", "", "")
  else if containsAny base ["calc", "calculator", "score"] then ("calculator", "", "")
  else if containsAny base ["figure", "image", "jpg", "jpeg", "png", "svg"] then
    ("image_figure", "", "")
  else if containsAny base ["notes", "note", "md", "txt"] then ("notes", "", "")
  else if containsAny base ["dataset", "csv", "xlsx", "jsonl", "parquet"] then ("dataset", "", "")
  else if containsAny base ["snapshot", "website", "web", "archive", "mhtml"] then
    ("website_snapshot", "", "")
  else ("", "", "")

/-- The secondary condition keyword pass of `classify` (lines 127-157), reached
only when no canonical condition code occurs in the filename. -/
def conditionFallback (base : String) : String :=
  if containsAny base ["stemi", "st elevation"] then "STEMI"
  else if containsAny base ["nstemi"] then "NSTEMI"
  else if containsAny base ["omi"] then "OMI"
  else if containsAny base ["acs", "acute coronary"] then "ACS"
  else if containsAny base ["af", "atrial fibrillation"] then "AF"
  else if containsAny base ["hf", "heart failure"] then "HF"
  else if containsAny base ["hcm"] then "HCM"
  else if containsAny base ["valv", "valve"] then "valvular"
  else if containsAny base ["pericard"] then "pericarditis"
  else if containsAny base ["syncope"] then "syncope"
  else if containsAny base ["hypertension", "htn"] then "hypertension"
  else if containsAny base ["pad", "peripheral artery"] then "PAD"
  else if containsAny base ["ep", "electrophysiol"] then "EP"
  else if containsAny base ["congenital"] then "congenital"
  else "cardiology_general"

/-- The condition classification of `classify` (lines 122-157): first canonical
code (list order) that occurs, lower-cased, in the lower-cased filename; on no
hit, the secondary keyword pass. -/
def conditionHeuristic (base : String) : String :=
  match CONDITIONS.find? (fun cond => strContains base (lowerStr cond)) with
  | some cond => cond
  | none => conditionFallback base

/-- The secondary source-org keyword pass of `classify` (lines 164-180). -/
def orgFallback (base : String) : String :=
  if containsAny base ["acc", "american college of cardiology"] then "ACC"
  else if containsAny base ["aha", "american heart association"] then "AHA"
  else if containsAny base ["esc", "european society of cardiology"] then "ESC"
  else if containsAny base ["nejm"] then "NEJM"
  else if containsAny base ["jama"] then "JAMA"
  else if containsAny base ["lancet"] then "Lancet"
  else if containsAny base ["cis", "clinical information system"] then "CIS"
  else "internal"

/-- The source-org classification of `classify` (lines 159-180).  The canonical
loop runs even when the docType chain already set an org (`orgInit`), and
overwrites it on a hit; the fallback runs only when the org is still empty. -/
def sourceOrgHeuristic (base : String) (orgInit : String) : String :=
  match SOURCE_ORGS.find? (fun org => strContains (dropDashes base) (dropDashes (lowerStr org))) with
  | some org => org
  | none => if orgInit == "" then orgFallback base else orgInit

/-- One position of `FILENAME_YEAR_RE` (`20\d\d|19\d\d`): do the next four chars
form a year token? -/
def yearAt : List Char → Option String
  | c1 :: c2 :: c3 :: c4 :: _ =>
    if ((c1 == '2' && c2 == '0') || (c1 == '1' && c2 == '9')) && c3.isDigit && c4.isDigit then
      some (String.mk [c1, c2, c3, c4])
    else none
  | _ => none

/-- `FILENAME_YEAR_RE.search`: leftmost year token. -/
def findYear : List Char → Option String
  | [] => none
  | c :: rest =>
    match yearAt (c :: rest) with
    | some y => some y
    | none => findYear rest

/-- `classify` from `classifiers.py` (lines 70-211).  `preview` is the bounded
content preview that `_safe_text_preview` would return (the store read is an
external collaborator); it is consulted only when the filename holds no year,
exactly as in the source. -/
def classify (filename : String) (preview : String) : TagSet :=
  let base := lowerStr filename
  let dt := docTypeHeuristic base
  let doc_type0 := dt.1
  let evidence_level := dt.2.1
  let condition := conditionHeuristic base
  let source_org := sourceOrgHeuristic base dt.2.2
  let year0 :=
    match findYear filename.toList with
    | some y => y
    | none =>
      match findYear preview.toList with
      | some y => y
      | none => ""
  let needs_review := if doc_type0 == "" then "yes" else "no"
  let doc_type := if doc_type0 == "" then "notes" else doc_type0
  let year := if year0 == "" then "unknown" else year0
  [("docType", doc_type), ("condition", condition), ("source_org", source_org),
   ("year", year), ("audience", "clinician"), ("evidence_level", evidence_level),
   ("retention_class", "refresh_annual"), ("phi", "no"), ("needs_review", needs_review)]

/-! ## organize_blobs.py : destination resolver -/

/-- `detect_destination_path` from `organize_blobs.py` (lines 22-29). -/
def detect_destination_path (tags : TagSet) (filename : String) : String :=
  if tgetOpt tags "needs_review" == some "yes" then
    "education/_unsorted/" ++ filename
  else
    "education/" ++ tgetD tags "docType" "notes" ++ "/" ++
      tgetD tags "condition" "cardiology_general" ++ "/" ++
      tgetD tags "year" "unknown" ++ "/" ++
      tgetD tags "source_org" "internal" ++ "/" ++ filename

/-! ## The blob store model

An association list from blob names to blobs; lookups return the first
binding.  `putBlob` and `deleteBlob` keep at most one binding per name. -/

structure Blob where
  content : String
  tags : TagSet
deriving DecidableEq

abbrev OrgStore := List (String × Blob)

def lookupBlob : OrgStore → String → Option Blob
  | [], _ => none
  | nb :: rest, name => if nb.1 == name then some nb.2 else lookupBlob rest name

def deleteBlob : OrgStore → String → OrgStore
  | [], _ => []
  | nb :: rest, name => if nb.1 == name then deleteBlob rest name else nb :: deleteBlob rest name

def putBlob (store : OrgStore) (name : String) (b : Blob) : OrgStore :=
  deleteBlob store name ++ [(name, b)]

/-- Trace entry: one invocation of a mutating store primitive. -/
inductive StoreOp where
  | copyBlob (src dst : String)
  | deleteOp (name : String)
  | setTagsOp (name : String) (tags : TagSet)
  | renameOp (src dst : String)
  | createDirOp (path : String)
deriving DecidableEq

/-- Result of a mover step: the store afterwards, the mutating primitives that
were invoked, and the raised exception, if any (already-performed mutations
persist when a later call raises, exactly as against the real store). -/
structure StepResult where
  store : OrgStore
  ops : List StoreOp
  err : Option String
deriving DecidableEq

/-! ## organize_blobs.py : safe mover -/

/-- `set_blob_tags` from `organize_blobs.py` (lines 32-34): setting tags on a
missing blob raises in the underlying client. -/
def set_blob_tags (store : OrgStore) (name : String) (tags : TagSet) : StepResult :=
  match lookupBlob store name with
  | none => ⟨store, [], some "set_blob_tags: blob not found"⟩
  | some b => ⟨putBlob store name ⟨b.content, tags⟩, [.setTagsOp name tags], none⟩

/-- `copy_and_delete` from `organize_blobs.py` (lines 37-47): start a server-side
copy, then delete the source immediately — no wait for completion and no
checksum verification.  `copyOf` models the content the asynchronous copy
materialises at the destination. -/
def copy_and_delete (copyOf : String → String) (store : OrgStore)
    (src_name dst_name : String) : StepResult :=
  match lookupBlob store src_name with
  | none => ⟨store, [], some "copy source not found"⟩
  | some b =>
    let store1 := putBlob store dst_name ⟨copyOf b.content, b.tags⟩
    ⟨deleteBlob store1 src_name, [.copyBlob src_name dst_name, .deleteOp src_name], none⟩

/-- `adls_rename` from `organize_blobs.py` (lines 50-70): create the destination
directory (errors ignored), then atomically rename. -/
def adls_rename (store : OrgStore) (src_name dst_name : String)
    (overwrite : Bool) : StepResult :=
  let dirOps : List StoreOp :=
    if dirName dst_name == "" then [] else [.createDirOp (dirName dst_name)]
  match lookupBlob store src_name with
  | none => ⟨store, dirOps, some "rename source not found"⟩
  | some b =>
    if (lookupBlob store dst_name).isSome && !overwrite then
      ⟨store, dirOps, some "rename destination already exists"⟩
    else
      ⟨putBlob (deleteBlob store src_name) dst_name b,
       dirOps ++ [.renameOp src_name dst_name], none⟩

/-- `_determine_action` from `organize_blobs.py` (lines 151-156). -/
def determine_action (dry_run tag_only use_adls : Bool) : String :=
  if dry_run then "dry-run"
  else if tag_only then "tag-only"
  else if use_adls then "rename" else "copy+delete"

/-- Run flags of one organizer invocation (`args` plus the cached environment
facts).  `adls_avail` models `adls_client is not None and DataLakeServiceClient
is not None`; `copyOf` models the server-side copy transfer. -/
structure Config where
  dry_run : Bool
  tag_only : Bool
  use_adls : Bool
  adls_avail : Bool
  overwrite : Bool
  maxFiles : Option Nat
  copyOf : String → String

/-- Chain a tag-set call after a successful mover step (`_apply_changes` sets
tags on the destination right after a rename or a copy+delete). -/
def thenSetTags (r : StepResult) (name : String) (tags : TagSet) : StepResult :=
  match r.err with
  | some _ => r
  | none =>
    let r2 := set_blob_tags r.store name tags
    ⟨r2.store, r.ops ++ r2.ops, r2.err⟩

/-- `_apply_changes` from `organize_blobs.py` (lines 159-189). -/
def apply_changes (cfg : Config) (store : OrgStore) (src_name dst_name : String)
    (tags : TagSet) : StepResult :=
  if cfg.dry_run then ⟨store, [], none⟩
  else if cfg.tag_only then set_blob_tags store src_name tags
  else if cfg.use_adls && cfg.adls_avail then
    thenSetTags (adls_rename store src_name dst_name cfg.overwrite) dst_name tags
  else
    thenSetTags (copy_and_delete cfg.copyOf store src_name dst_name) dst_name tags

/-! ## organize_blobs.py : audit ledger and pipeline driver -/

/-- One CSV row of the audit ledger (the timestamp column, an external clock
read, is omitted from the model). -/
structure AuditRecord where
  source_path : String
  destination_path : String
  action : String
  status : String
  error : String
  tags : TagSet
deriving DecidableEq

/-- The error row written by `main`'s per-item exception handler (lines 296-307). -/
def errRecord (name e : String) : AuditRecord :=
  ⟨name, "", "skip", "error", e, []⟩

/-- `_safe_text_preview` from `classifiers.py` (lines 51-67): bounded read of the
blob; empty on a missing blob (any exception) or a PDF signature. -/
def safe_text_preview (store : OrgStore) (name : String) : String :=
  match lookupBlob store name with
  | none => ""
  | some b => if startsWithPDF b.content then "" else b.content

/-- Result of `_process_blob`: the store and trace afterwards, the ok-row it
wrote (if any), its return value (`did`), and the exception it raised (if any). -/
structure ProcResult where
  store : OrgStore
  ops : List StoreOp
  record : Option AuditRecord
  did : Bool
  err : Option String
deriving DecidableEq

/-- `_process_blob` from `organize_blobs.py` (lines 192-244): skip virtual
directories, classify, resolve the destination, apply the changes, then write
one ok-row.  An exception inside `_apply_changes` propagates before the ok-row
is written. -/
def process_blob (cfg : Config) (store : OrgStore) (name : String) : ProcResult :=
  if endsWithSlash name then ⟨store, [], none, false, none⟩
  else
    let filename := lastComponent name
    let tags := classify filename (safe_text_preview store name)
    let dst := detect_destination_path tags filename
    let action := determine_action cfg.dry_run cfg.tag_only cfg.use_adls
    let r := apply_changes cfg store name dst tags
    match r.err with
    | some e => ⟨r.store, r.ops, none, false, some e⟩
    | none => ⟨r.store, r.ops, some ⟨name, dst, action, "ok", "", tags⟩, true, none⟩

/-- Final state of one driver run. -/
structure DriveResult where
  store : OrgStore
  ops : List StoreOp
  recs : List AuditRecord
deriving DecidableEq

/-- The item loop of `main` in `organize_blobs.py` (lines 276-308): process each
listed item; a per-item exception is caught and written as an error row (and the
cap check of that iteration is skipped, as the exception jumps past it); the
max-files cap (falsy when 0) stops the scan after a successful item. -/
def drive_loop (cfg : Config) (store : OrgStore) (ops : List StoreOp)
    (recs : List AuditRecord) (processed : Nat) : List String → DriveResult
  | [] => ⟨store, ops, recs⟩
  | name :: rest =>
    let p := process_blob cfg store name
    match p.err with
    | some e =>
      drive_loop cfg p.store (ops ++ p.ops) (recs ++ [errRecord name e]) processed rest
    | none =>
      let processed2 := if p.did then processed + 1 else processed
      let recs2 := recs ++ (match p.record with | some r => [r] | none => [])
      let stop :=
        match cfg.maxFiles with
        | some m => m != 0 && decide (m ≤ processed2)
        | none => false
      if stop then ⟨p.store, ops ++ p.ops, recs2⟩
      else drive_loop cfg p.store (ops ++ p.ops) recs2 processed2 rest

/-- One organizer run over a store listing. -/
def drive (cfg : Config) (store : OrgStore) (items : List String) : DriveResult :=
  drive_loop cfg store [] [] 0 items

/-! ## azure_clients.py : capability probe -/

/-- `is_hns_enabled` from `azure_clients.py` (lines 62-68): the account query
either raises (`Except.error`) or yields a property mapping; the probe returns
`bool(props.get("isHierarchicalNamespaceEnabled"))` and `False` on any
exception. -/
def is_hns_enabled (accountInfo : Except String (List (String × Bool))) : Bool :=
  match accountInfo with
  | .error _ => false
  | .ok props =>
    match props.find? (fun kv => kv.1 == "isHierarchicalNamespaceEnabled") with
    | some kv => kv.2
    | none => false

/-! ## blob-filename-normalizer.py -/

/-- The result dict of `normalize_blob_filename` (lines 102-108). -/
structure NormResult where
  blob_name : String
  normalized_name : Option String
  action : String
  reason : Option String
  checksum_match : Option Bool
deriving DecidableEq

/-- `generate_normalized_name` from `blob-filename-normalizer.py` (lines 62-77). -/
def generate_normalized_name (blob_name : String) (tags : TagSet) : String :=
  let year0 := tgetD tags "year" "unknown"
  let org0 := tgetD tags "source_org" "unknown"
  let year := if year0 == "unknown" then "unknown" else stripStr year0
  let source_org :=
    if org0 == "unknown" then "unknown"
    else spacesToUnderscores (lowerStr (stripStr org0))
  year ++ "-" ++ source_org ++ "-" ++ lastComponent blob_name

/-- `normalize_blob_filename` from `blob-filename-normalizer.py` (lines 95-179).
`chk` models `calculate_checksum` (`none` = the checksum computation failed);
`copyOf` models the content the server-side copy materialises at the
destination (the source waits a fixed delay instead of polling, so the copy may
be corrupt or truncated).  Returns the result dict and the store afterwards. -/
def normalize_blob_filename (chk : String → Option String) (copyOf : String → String)
    (store : OrgStore) (blob_name : String) (dry_run : Bool) : NormResult × OrgStore :=
  match lookupBlob store blob_name with
  | none => (⟨blob_name, none, "skipped", some "blob_not_found", none⟩, store)
  | some b =>
    if b.tags.isEmpty then (⟨blob_name, none, "skipped", some "no_tags", none⟩, store)
    else
      let nn := generate_normalized_name blob_name b.tags
      if nn == blob_name then
        (⟨blob_name, none, "skipped", some "already_normalized", none⟩, store)
      else if dry_run then
        (⟨blob_name, some nn, "dry_run", some "would_rename", none⟩, store)
      else
        match chk b.content with
        | none => (⟨blob_name, some nn, "skipped", some "checksum_failed", none⟩, store)
        | some source_checksum =>
          let copied := copyOf b.content
          let store1 := putBlob store nn ⟨copied, b.tags⟩
          let dest_checksum := chk copied
          if dest_checksum ≠ some source_checksum then
            (⟨blob_name, some nn, "skipped", some "checksum_mismatch", some false⟩,
             deleteBlob store1 nn)
          else
            (⟨blob_name, some nn, "renamed", none, some true⟩, deleteBlob store1 blob_name)

/-- The dry-run default of the normalizer CLI (lines 259-270): `--dry-run` is
`store_true` with `default=True` and `--no-dry-run` is `store_false` into the
same destination; the last occurrence wins. -/
def normalizer_parse_dry_run (args : List String) : Bool :=
  args.foldl
    (fun acc a => if a == "--dry-run" then true else if a == "--no-dry-run" then false else acc)
    true

/-- The dry-run default of the organizer CLI (`_build_arg_parser`, lines 90-92):
`--dry-run` is a plain `store_true`, whose argparse default is `False`. -/
def organizer_parse_dry_run (args : List String) : Bool :=
  args.foldl (fun acc a => if a == "--dry-run" then true else acc) false

/-- The mutating-primitive trace that corresponds to each audit `action` value:
`dry-run` = no mutation, `tag-only` = tags set on the source, `rename` = the
ADLS path (directory create, atomic rename, tags on the destination),
`copy+delete` = the fallback path (copy, source delete, tags on the
destination). -/
def actionMatchesOps (action : String) (ops : List StoreOp) (src dst : String)
    (tags : TagSet) : Prop :=
  (action = "dry-run" ∧ ops = []) ∨
  (action = "tag-only" ∧ ops = [.setTagsOp src tags]) ∨
  (action = "rename" ∧
    ops = (if dirName dst == "" then [] else [.createDirOp (dirName dst)]) ++
      [.renameOp src dst, .setTagsOp dst tags]) ∨
  (action = "copy+delete" ∧ ops = [.copyBlob src dst, .deleteOp src, .setTagsOp dst tags])

/-! ## Store lemmas -/

theorem lookupBlob_deleteBlob (s : OrgStore) (n m : String) :
    lookupBlob (deleteBlob s m) n = if n = m then none else lookupBlob s n := by
  induction s with
  | nil => simp [lookupBlob, deleteBlob]
  | cons hd tl ih =>
    by_cases h : hd.1 = m
    · by_cases hnm : n = m
      · subst hnm
        simp [deleteBlob, lookupBlob, h, ih]
      · have hmn : ¬ m = n := fun hc => hnm hc.symm
        simp [deleteBlob, lookupBlob, h, hnm, hmn, ih]
    · by_cases he : hd.1 = n
      · have hnm : ¬ n = m := fun hc => h (he.trans hc)
        simp [deleteBlob, lookupBlob, h, he, hnm]
      · simp [deleteBlob, lookupBlob, h, he, ih]

theorem lookupBlob_append (l1 l2 : OrgStore) (n : String) :
    lookupBlob (l1 ++ l2) n =
      match lookupBlob l1 n with
      | some b => some b
      | none => lookupBlob l2 n := by
  induction l1 with
  | nil => simp [lookupBlob]
  | cons hd tl ih =>
    by_cases h : hd.1 = n
    · simp [lookupBlob, h]
    · simp only [List.cons_append, lookupBlob, beq_iff_eq, h, if_false]
      exact ih

theorem lookupBlob_putBlob (s : OrgStore) (n m : String) (b : Blob) :
    lookupBlob (putBlob s m b) n = if n = m then some b else lookupBlob s n := by
  unfold putBlob
  rw [lookupBlob_append, lookupBlob_deleteBlob]
  by_cases h : n = m
  · simp [h, lookupBlob]
  · have hb : ¬ m = n := fun hc => h hc.symm
    simp only [h, lookupBlob, beq_iff_eq, hb, if_false]
    cases lookupBlob s n <;> simp

/-! ## Claim theorems -/

/-- C4: for the input filename `2019_ACC_AHA_STEMI_Guideline.pdf` with an empty
content preview, `classify` returns exactly the tag mapping {docType:
guideline, condition: STEMI, source_org: ACC, year: 2019, needs_review: no,
evidence_level: guideline, audience: clinician, retention_class:
refresh_annual, phi: no}, and resolving that tag mapping with the same filename
yields `education/guideline/STEMI/2019/ACC/2019_ACC_AHA_STEMI_Guideline.pdf`. -/
theorem classify_stemi_guideline_end_to_end :
    classify "2019_ACC_AHA_STEMI_Guideline.pdf" "" =
      [("docType", "guideline"), ("condition", "STEMI"), ("source_org", "ACC"),
       ("year", "2019"), ("audience", "clinician"), ("evidence_level", "guideline"),
       ("retention_class", "refresh_annual"), ("phi", "no"), ("needs_review", "no")] ∧
    detect_destination_path (classify "2019_ACC_AHA_STEMI_Guideline.pdf" "")
        "2019_ACC_AHA_STEMI_Guideline.pdf" =
      "education/guideline/STEMI/2019/ACC/2019_ACC_AHA_STEMI_Guideline.pdf" := by
  decide

/-- C5: whenever the tag mapping carries `needs_review = "yes"`, the destination
resolver routes the item to the single flat quarantine location
`education/_unsorted/<filename>`, keyed only by the filename — never to a
taxonomy path built from docType, condition, year or source_org (those fields
do not occur in the result at all). -/
theorem quarantine_routing (tags : TagSet) (filename : String)
    (h : tgetOpt tags "needs_review" = some "yes") :
    detect_destination_path tags filename = "education/_unsorted/" ++ filename := by
  unfold detect_destination_path
  rw [h]
  simp

/-- Witness for `quarantine_routing` at a concrete low-confidence tag set. -/
theorem quarantine_routing_witness :
    detect_destination_path [("docType", "notes"), ("needs_review", "yes")] "scan0042.bin" =
      "education/_unsorted/" ++ "scan0042.bin" :=
  quarantine_routing [("docType", "notes"), ("needs_review", "yes")] "scan0042.bin" (by decide)

/-- C7: the capability probe `is_hns_enabled` is a total function into `Bool`
(it never raises: every behaviour of the underlying account query, including
any failure `Except.error e`, yields a boolean), on any failure it returns
`false`, and `false` directs the mover to the copy-then-delete strategy (with
`--use-adls` not given, `use_adls = args.use_adls or hns = false`, and
`_determine_action` picks `copy+delete` in live, non-tag-only mode). -/
theorem probe_fail_safe (e : String) :
    is_hns_enabled (Except.error e) = false ∧
    determine_action false false (false || is_hns_enabled (Except.error e)) = "copy+delete" :=
  ⟨rfl, rfl⟩

/-- C1 counterexample: the organizer's copy-then-delete mover (`copy_and_delete`
in `organize_blobs.py`) computes no checksum at all: on a transfer that
corrupts the content (the copy is started and never awaited), it still deletes
the source and leaves the corrupt destination copy in place — its trace holds
exactly one copy and one delete call, and the surviving destination content
differs from the source content, so the two checksums of the claim could not
have been equal. -/
theorem copy_and_delete_skips_verification :
    (copy_and_delete (fun _ => "CORRUPT") [("incoming/doc.pdf", ⟨"ORIGINAL", []⟩)]
        "incoming/doc.pdf" "education/doc.pdf").err = none ∧
    (copy_and_delete (fun _ => "CORRUPT") [("incoming/doc.pdf", ⟨"ORIGINAL", []⟩)]
        "incoming/doc.pdf" "education/doc.pdf").ops =
      [.copyBlob "incoming/doc.pdf" "education/doc.pdf", .deleteOp "incoming/doc.pdf"] ∧
    lookupBlob (copy_and_delete (fun _ => "CORRUPT") [("incoming/doc.pdf", ⟨"ORIGINAL", []⟩)]
        "incoming/doc.pdf" "education/doc.pdf").store "incoming/doc.pdf" = none ∧
    lookupBlob (copy_and_delete (fun _ => "CORRUPT") [("incoming/doc.pdf", ⟨"ORIGINAL", []⟩)]
        "incoming/doc.pdf" "education/doc.pdf").store "education/doc.pdf" =
      some ⟨"CORRUPT", []⟩ ∧
    ("CORRUPT" : String) ≠ "ORIGINAL" := by
  decide

/-- C2 counterexample: the organizer CLI's `--dry-run` is a plain `store_true`
argument, so with no dry-run argument it parses to `false`, and the resulting
run makes live changes to the store: over a one-item listing the driver invokes
mutating primitives and the store is mutated. -/
theorem organizer_live_by_default :
    organizer_parse_dry_run [] = false ∧
    (drive ⟨organizer_parse_dry_run [], false, false, false, false, none, fun s => s⟩
        [("incoming/2020_ACC_Guideline.pdf", ⟨"data", []⟩)]
        ["incoming/2020_ACC_Guideline.pdf"]).ops ≠ [] ∧
    (drive ⟨organizer_parse_dry_run [], false, false, false, false, none, fun s => s⟩
        [("incoming/2020_ACC_Guideline.pdf", ⟨"data", []⟩)]
        ["incoming/2020_ACC_Guideline.pdf"]).store ≠
      [("incoming/2020_ACC_Guideline.pdf", ⟨"data", []⟩)] := by
  decide

/-- C9 counterexample: with `use_adls` true (requested or probed) but no usable
ADLS client (`adls_avail = false`, e.g. the data-lake SDK is absent or the
client could not be constructed), `_process_blob` records action `rename` with
status `ok`, while the mutations actually performed are the copy-then-delete
fallback: the trace holds no rename call but does hold a copy and a delete. -/
theorem audit_action_misreports_rename :
    ((process_blob ⟨false, false, true, false, false, none, fun s => s⟩
        [("incoming/2020_ACC_Guideline.pdf", ⟨"data", []⟩)]
        "incoming/2020_ACC_Guideline.pdf").record.map (fun r => r.action)) = some "rename" ∧
    ((process_blob ⟨false, false, true, false, false, none, fun s => s⟩
        [("incoming/2020_ACC_Guideline.pdf", ⟨"data", []⟩)]
        "incoming/2020_ACC_Guideline.pdf").record.map (fun r => r.status)) = some "ok" ∧
    ((process_blob ⟨false, false, true, false, false, none, fun s => s⟩
        [("incoming/2020_ACC_Guideline.pdf", ⟨"data", []⟩)]
        "incoming/2020_ACC_Guideline.pdf").ops.any
      (fun op => match op with | .renameOp _ _ => true | _ => false)) = false ∧
    ((process_blob ⟨false, false, true, false, false, none, fun s => s⟩
        [("incoming/2020_ACC_Guideline.pdf", ⟨"data", []⟩)]
        "incoming/2020_ACC_Guideline.pdf").ops.any
      (fun op => match op with | .copyBlob _ _ => true | _ => false)) = true ∧
    ((process_blob ⟨false, false, true, false, false, none, fun s => s⟩
        [("incoming/2020_ACC_Guideline.pdf", ⟨"data", []⟩)]
        "incoming/2020_ACC_Guideline.pdf").ops.any
      (fun op => match op with | .deleteOp _ => true | _ => false)) = true := by
  decide

/-- C6: the code violates the claim.  For an item already residing at its
computed destination path (here a guideline blob already filed under the
taxonomy, scanned with an empty prefix), the organizer in live, non-tag-only,
non-ADLS mode does not report `already_normalized` and does not leave the store
alone: `_apply_changes` copies the blob onto itself, then deletes the source —
which *is* the destination — destroying the blob; the subsequent tag-set call
then raises on the now-missing blob, so the run audits an error row.  The
first conjunct shows the computed destination equals the source path; the rest
evaluate the mover there. -/
theorem organizer_destroys_already_placed_blob :
    detect_destination_path
        (classify "2019_ACC_AHA_STEMI_Guideline.pdf"
          (safe_text_preview
            [("education/guideline/STEMI/2019/ACC/2019_ACC_AHA_STEMI_Guideline.pdf",
              ⟨"%PDF-1.4 data", []⟩)]
            "education/guideline/STEMI/2019/ACC/2019_ACC_AHA_STEMI_Guideline.pdf"))
        "2019_ACC_AHA_STEMI_Guideline.pdf" =
      "education/guideline/STEMI/2019/ACC/2019_ACC_AHA_STEMI_Guideline.pdf" ∧
    (process_blob ⟨false, false, false, false, false, none, fun s => s⟩
        [("education/guideline/STEMI/2019/ACC/2019_ACC_AHA_STEMI_Guideline.pdf",
          ⟨"%PDF-1.4 data", []⟩)]
        "education/guideline/STEMI/2019/ACC/2019_ACC_AHA_STEMI_Guideline.pdf").ops ≠ [] ∧
    lookupBlob
      (process_blob ⟨false, false, false, false, false, none, fun s => s⟩
          [("education/guideline/STEMI/2019/ACC/2019_ACC_AHA_STEMI_Guideline.pdf",
            ⟨"%PDF-1.4 data", []⟩)]
          "education/guideline/STEMI/2019/ACC/2019_ACC_AHA_STEMI_Guideline.pdf").store
      "education/guideline/STEMI/2019/ACC/2019_ACC_AHA_STEMI_Guideline.pdf" = none ∧
    (process_blob ⟨false, false, false, false, false, none, fun s => s⟩
        [("education/guideline/STEMI/2019/ACC/2019_ACC_AHA_STEMI_Guideline.pdf",
          ⟨"%PDF-1.4 data", []⟩)]
        "education/guideline/STEMI/2019/ACC/2019_ACC_AHA_STEMI_Guideline.pdf").record =
      none ∧
    (process_blob ⟨false, false, false, false, false, none, fun s => s⟩
        [("education/guideline/STEMI/2019/ACC/2019_ACC_AHA_STEMI_Guideline.pdf",
          ⟨"%PDF-1.4 data", []⟩)]
        "education/guideline/STEMI/2019/ACC/2019_ACC_AHA_STEMI_Guideline.pdf").err =
      some "set_blob_tags: blob not found" := by
  decide

/-! ## Classifier and driver lemmas -/

theorem classify_condition_eq (f preview : String) :
    tgetOpt (classify f preview) "condition" =
      some (conditionHeuristic (lowerStr f)) := rfl

theorem process_blob_dry (t u a o : Bool) (c : String → String)
    (store : OrgStore) (name : String) :
    process_blob ⟨true, t, u, a, o, none, c⟩ store name =
      if endsWithSlash name then ⟨store, [], none, false, none⟩
      else ⟨store, [],
        some ⟨name,
          detect_destination_path
            (classify (lastComponent name) (safe_text_preview store name)) (lastComponent name),
          "dry-run", "ok", "",
          classify (lastComponent name) (safe_text_preview store name)⟩,
        true, none⟩ := by
  by_cases h : endsWithSlash name <;>
    simp [process_blob, apply_changes, determine_action, h]

theorem drive_loop_dry_pure (t u a o : Bool) (c : String → String) :
    ∀ (items : List String) (store : OrgStore) (ops : List StoreOp)
      (recs : List AuditRecord) (processed : Nat),
      (drive_loop ⟨true, t, u, a, o, none, c⟩ store ops recs processed items).store = store ∧
      (drive_loop ⟨true, t, u, a, o, none, c⟩ store ops recs processed items).ops = ops ∧
      (drive_loop ⟨true, t, u, a, o, none, c⟩ store ops recs processed items).recs.length =
        recs.length + (items.filter (fun n => !endsWithSlash n)).length := by
  intro items
  induction items with
  | nil => intro store ops recs processed; simp [drive_loop]
  | cons name rest ih =>
    intro store ops recs processed
    have hp := process_blob_dry t u a o c store name
    by_cases h : endsWithSlash name
    · rw [if_pos h] at hp
      obtain ⟨h1, h2, h3⟩ := ih store ops recs processed
      simp only [drive_loop, hp]
      simp only [List.append_nil, Bool.false_eq_true, if_false]
      refine ⟨h1, h2, ?_⟩
      rw [h3]
      simp [h, List.filter_cons]
    · rw [if_neg h] at hp
      obtain ⟨h1, h2, h3⟩ :=
        ih store ops
          (recs ++ [⟨name,
            detect_destination_path
              (classify (lastComponent name) (safe_text_preview store name)) (lastComponent name),
            "dry-run", "ok", "",
            classify (lastComponent name) (safe_text_preview store name)⟩])
          (processed + 1)
      simp only [drive_loop, hp]
      simp only [List.append_nil, Bool.false_eq_true, if_false, if_true]
      refine ⟨h1, h2, ?_⟩
      rw [h3]
      simp [h, List.filter_cons]
      omega

theorem drive_loop_shift (d t u a o : Bool) (c : String → String) :
    ∀ (items : List String) (store : OrgStore) (ops : List StoreOp)
      (recs : List AuditRecord) (processed : Nat),
      drive_loop ⟨d, t, u, a, o, none, c⟩ store ops recs processed items =
        ⟨(drive_loop ⟨d, t, u, a, o, none, c⟩ store [] [] processed items).store,
         ops ++ (drive_loop ⟨d, t, u, a, o, none, c⟩ store [] [] processed items).ops,
         recs ++ (drive_loop ⟨d, t, u, a, o, none, c⟩ store [] [] processed items).recs⟩ := by
  intro items
  induction items with
  | nil => intro store ops recs processed; simp [drive_loop]
  | cons name rest ih =>
    intro store ops recs processed
    simp only [drive_loop]
    cases hp : (process_blob ⟨d, t, u, a, o, none, c⟩ store name).err with
    | some e =>
      simp only [hp]
      rw [ih _ (ops ++ _) (recs ++ _), ih _ ([] ++ _) ([] ++ _)]
      simp [List.append_assoc]
    | none =>
      simp only [hp, Bool.false_eq_true, if_false, List.append_nil]
      rw [ih _ (ops ++ _) _, ih _ ([] ++ _) _]
      simp [List.append_assoc]

theorem drive_loop_records_total (d t u a o : Bool) (c : String → String) :
    ∀ (items : List String) (store : OrgStore) (ops : List StoreOp)
      (recs : List AuditRecord) (processed : Nat),
      (drive_loop ⟨d, t, u, a, o, none, c⟩ store ops recs processed items).recs.length =
        recs.length + (items.filter (fun n => !endsWithSlash n)).length := by
  intro items
  induction items with
  | nil => intro store ops recs processed; simp [drive_loop]
  | cons name rest ih =>
    intro store ops recs processed
    simp only [drive_loop]
    by_cases h : endsWithSlash name
    · have hp : process_blob ⟨d, t, u, a, o, none, c⟩ store name =
          ⟨store, [], none, false, none⟩ := by
        simp [process_blob, h]
      simp only [hp]
      simp only [List.append_nil, Bool.false_eq_true, if_false]
      rw [ih]
      simp [h, List.filter_cons]
    · cases hp : (process_blob ⟨d, t, u, a, o, none, c⟩ store name).err with
      | some e =>
        simp only [hp]
        rw [ih]
        simp [h, List.filter_cons]
        omega
      | none =>
        have hrec : ((process_blob ⟨d, t, u, a, o, none, c⟩ store name).record).isSome = true := by
          revert hp
          simp only [process_blob, h, Bool.false_eq_true, if_false]
          cases (apply_changes ⟨d, t, u, a, o, none, c⟩ store name
              (detect_destination_path
                (classify (lastComponent name) (safe_text_preview store name))
                (lastComponent name))
              (classify (lastComponent name) (safe_text_preview store name))).err with
          | some e => intro hc; simp at hc
          | none => intro hc; rfl
        obtain ⟨r, hr⟩ := Option.isSome_iff_exists.mp hrec
        simp only [hp, hr, Bool.false_eq_true, if_false]
        rw [ih]
        simp [h, List.filter_cons]
        omega

theorem apply_changes_ops_shape (d t u a o : Bool) (c : String → String) (m : Option Nat)
    (store : OrgStore) (src dst : String) (tags : TagSet)
    (hadls : u = true → a = true)
    (herr : (apply_changes ⟨d, t, u, a, o, m, c⟩ store src dst tags).err = none) :
    actionMatchesOps (determine_action d t u)
      (apply_changes ⟨d, t, u, a, o, m, c⟩ store src dst tags).ops src dst tags := by
  cases d with
  | true => exact Or.inl ⟨rfl, rfl⟩
  | false =>
    cases t with
    | true =>
      refine Or.inr (Or.inl ⟨rfl, ?_⟩)
      cases hl : lookupBlob store src with
      | none => exfalso; simp [apply_changes, set_blob_tags, hl] at herr
      | some b => simp [apply_changes, set_blob_tags, hl]
    | false =>
      cases u with
      | true =>
        have ha : a = true := hadls rfl
        subst ha
        refine Or.inr (Or.inr (Or.inl ⟨rfl, ?_⟩))
        cases hl : lookupBlob store src with
        | none => exfalso; simp [apply_changes, adls_rename, thenSetTags, hl] at herr
        | some b =>
          by_cases hex : ((lookupBlob store dst).isSome && !o) = true
          · exfalso; simp [apply_changes, adls_rename, thenSetTags, hl, hex] at herr
          · have hex' : ((lookupBlob store dst).isSome && !o) = false := by
              simpa using hex
            have hlo : lookupBlob (putBlob (deleteBlob store src) dst b) dst = some b := by
              rw [lookupBlob_putBlob]; simp
            simp [apply_changes, adls_rename, thenSetTags, set_blob_tags, hl, hex', hlo,
              List.append_assoc]
      | false =>
        refine Or.inr (Or.inr (Or.inr ⟨rfl, ?_⟩))
        cases hl : lookupBlob store src with
        | none => exfalso; simp [apply_changes, copy_and_delete, thenSetTags, hl] at herr
        | some b =>
          by_cases hdn : dst = src
          · exfalso
            have hgone :
                lookupBlob (deleteBlob (putBlob store dst ⟨c b.content, b.tags⟩) src) dst =
                  none := by
              rw [lookupBlob_deleteBlob]; simp [hdn]
            simp [apply_changes, copy_and_delete, thenSetTags, set_blob_tags, hl, hgone] at herr
          · have hkeep :
                lookupBlob (deleteBlob (putBlob store dst ⟨c b.content, b.tags⟩) src) dst =
                  some ⟨c b.content, b.tags⟩ := by
              rw [lookupBlob_deleteBlob, if_neg hdn, lookupBlob_putBlob]; simp
            simp [apply_changes, copy_and_delete, thenSetTags, set_blob_tags, hl, hkeep]

/-- C1 (amended): the checksum discipline of the claim is implemented by the
filename-normalizer's copy-then-delete mover, not by the organizer's
(`copy_and_delete_skips_verification` shows the organizer deletes the source
with no verification at all).  For the normalizer, for every checksum routine,
copy transfer, store, and blob carrying tags whose normalized name differs from
the source name: (a) when the checksum of the copy differs from the checksum of
the source, the mover reports `checksum_mismatch`, deletes the destination
copy, and leaves the source present and unmodified; (b) the source is deleted
only if the two checksums were computed and equal; (c) when they are equal the
mover reports `renamed`, the copy is at the destination, and the source is
deleted. -/
theorem normalizer_checksum_discipline (chk : String → Option String)
    (copyOf : String → String) (store : OrgStore) (blob_name : String) (b : Blob)
    (hfound : lookupBlob store blob_name = some b)
    (htags : b.tags.isEmpty = false)
    (hdiff : generate_normalized_name blob_name b.tags ≠ blob_name) :
    (∀ s, chk b.content = some s → chk (copyOf b.content) ≠ some s →
      (normalize_blob_filename chk copyOf store blob_name false).1.reason =
        some "checksum_mismatch" ∧
      (normalize_blob_filename chk copyOf store blob_name false).1.checksum_match = some false ∧
      (normalize_blob_filename chk copyOf store blob_name false).1.action = "skipped" ∧
      lookupBlob (normalize_blob_filename chk copyOf store blob_name false).2 blob_name =
        some b ∧
      lookupBlob (normalize_blob_filename chk copyOf store blob_name false).2
        (generate_normalized_name blob_name b.tags) = none) ∧
    (lookupBlob (normalize_blob_filename chk copyOf store blob_name false).2 blob_name = none →
      ∃ s, chk b.content = some s ∧ chk (copyOf b.content) = some s) ∧
    (∀ s, chk b.content = some s → chk (copyOf b.content) = some s →
      (normalize_blob_filename chk copyOf store blob_name false).1.action = "renamed" ∧
      (normalize_blob_filename chk copyOf store blob_name false).1.checksum_match = some true ∧
      lookupBlob (normalize_blob_filename chk copyOf store blob_name false).2
        (generate_normalized_name blob_name b.tags) = some ⟨copyOf b.content, b.tags⟩ ∧
      lookupBlob (normalize_blob_filename chk copyOf store blob_name false).2 blob_name =
        none) := by
  have hb : (generate_normalized_name blob_name b.tags == blob_name) = false := by
    simpa using hdiff
  have hnd : ¬ (generate_normalized_name blob_name b.tags = blob_name) := hdiff
  cases hsrc : chk b.content with
  | none =>
    have heq : normalize_blob_filename chk copyOf store blob_name false =
        (⟨blob_name, some (generate_normalized_name blob_name b.tags), "skipped",
          some "checksum_failed", none⟩, store) := by
      unfold normalize_blob_filename
      simp [hfound, htags, hb, hsrc]
    refine ⟨?_, ?_, ?_⟩
    · intro s hs
      exact absurd hs (by simp)
    · rw [heq]
      intro hnone
      rw [hfound] at hnone
      exact absurd hnone (by simp)
    · intro s hs
      exact absurd hs (by simp)
  | some src =>
    by_cases hmatch : chk (copyOf b.content) = some src
    · have heq : normalize_blob_filename chk copyOf store blob_name false =
          (⟨blob_name, some (generate_normalized_name blob_name b.tags), "renamed",
            none, some true⟩,
           deleteBlob
             (putBlob store (generate_normalized_name blob_name b.tags)
               ⟨copyOf b.content, b.tags⟩) blob_name) := by
        unfold normalize_blob_filename
        simp [hfound, htags, hb, hsrc, hmatch]
      refine ⟨?_, ?_, ?_⟩
      · intro s hs hne
        have hss : src = s := by injection hs
        exact absurd (hss ▸ hmatch) hne
      · intro _
        exact ⟨src, rfl, hmatch⟩
      · intro s hs hm2
        rw [heq]
        refine ⟨rfl, rfl, ?_, ?_⟩
        · rw [lookupBlob_deleteBlob, if_neg hnd, lookupBlob_putBlob]
          simp
        · rw [lookupBlob_deleteBlob]
          simp
    · have heq : normalize_blob_filename chk copyOf store blob_name false =
          (⟨blob_name, some (generate_normalized_name blob_name b.tags), "skipped",
            some "checksum_mismatch", some false⟩,
           deleteBlob
             (putBlob store (generate_normalized_name blob_name b.tags)
               ⟨copyOf b.content, b.tags⟩)
             (generate_normalized_name blob_name b.tags)) := by
        unfold normalize_blob_filename
        simp [hfound, htags, hb, hsrc, hmatch]
      have hkeep : lookupBlob
          (deleteBlob
            (putBlob store (generate_normalized_name blob_name b.tags)
              ⟨copyOf b.content, b.tags⟩)
            (generate_normalized_name blob_name b.tags)) blob_name = some b := by
        rw [lookupBlob_deleteBlob, if_neg (fun hc => hnd hc.symm), lookupBlob_putBlob,
          if_neg (fun hc => hnd hc.symm)]
        exact hfound
      refine ⟨?_, ?_, ?_⟩
      · intro s hs hne
        rw [heq]
        refine ⟨rfl, rfl, rfl, hkeep, ?_⟩
        rw [lookupBlob_deleteBlob]
        simp
      · rw [heq]
        intro hnone
        rw [hkeep] at hnone
        exact absurd hnone (by simp)
      · intro s hs hm2
        have hss : src = s := by injection hs
        exact absurd (hss.symm ▸ hm2) hmatch

/-- Witness for `normalizer_checksum_discipline`: a concrete store holding one
tagged blob, the identity digest, and a transfer that corrupts the content. -/
theorem normalizer_checksum_discipline_witness :
    (normalize_blob_filename (fun s => some s) (fun _ => "CORRUPT")
        [("doc.pdf", ⟨"GOOD", [("year", "2020")]⟩)] "doc.pdf" false).1.reason =
      some "checksum_mismatch" ∧
    (normalize_blob_filename (fun s => some s) (fun _ => "CORRUPT")
        [("doc.pdf", ⟨"GOOD", [("year", "2020")]⟩)] "doc.pdf" false).1.checksum_match =
      some false ∧
    (normalize_blob_filename (fun s => some s) (fun _ => "CORRUPT")
        [("doc.pdf", ⟨"GOOD", [("year", "2020")]⟩)] "doc.pdf" false).1.action = "skipped" ∧
    lookupBlob (normalize_blob_filename (fun s => some s) (fun _ => "CORRUPT")
        [("doc.pdf", ⟨"GOOD", [("year", "2020")]⟩)] "doc.pdf" false).2 "doc.pdf" =
      some ⟨"GOOD", [("year", "2020")]⟩ ∧
    lookupBlob (normalize_blob_filename (fun s => some s) (fun _ => "CORRUPT")
        [("doc.pdf", ⟨"GOOD", [("year", "2020")]⟩)] "doc.pdf" false).2
      (generate_normalized_name "doc.pdf" [("year", "2020")]) = none :=
  (normalizer_checksum_discipline (fun s => some s) (fun _ => "CORRUPT")
      [("doc.pdf", ⟨"GOOD", [("year", "2020")]⟩)] "doc.pdf" ⟨"GOOD", [("year", "2020")]⟩
      (by decide) (by decide) (by decide)).1 "GOOD" (by decide) (by decide)

/-- C2 (amended): the filename-normalizer CLI's dry-run flag defaults to true
(`--no-dry-run` is the explicit opt-in to live mode) and a normalizer dry run
changes nothing in the store, for every store and blob; the organizer CLI's
dry-run flag, by contrast, defaults to false (`organizer_live_by_default`), so
for the organizer live mode — not dry-run — is what a flagless invocation
gets. -/
theorem dry_run_defaults (chk : String → Option String) (copyOf : String → String)
    (store : OrgStore) (blob_name : String) :
    normalizer_parse_dry_run [] = true ∧
    organizer_parse_dry_run [] = false ∧
    normalizer_parse_dry_run ["--no-dry-run"] = false ∧
    (normalize_blob_filename chk copyOf store blob_name (normalizer_parse_dry_run [])).2 =
      store := by
  refine ⟨rfl, rfl, rfl, ?_⟩
  show (normalize_blob_filename chk copyOf store blob_name true).2 = store
  unfold normalize_blob_filename
  cases lookupBlob store blob_name with
  | none => rfl
  | some b =>
    by_cases h1 : b.tags.isEmpty <;>
      by_cases h2 : (generate_normalized_name blob_name b.tags == blob_name) = true <;>
        simp [h1, h2]

/-- C3: for every store state, every listing, and every combination of the other
run flags, the pipeline driver with `dry_run = true` (and no item cap) invokes
no mutating store primitive (its trace is empty), leaves the store state
unchanged, and writes exactly one audit record per non-directory item
processed. -/
theorem dry_run_pipeline_pure (tag_only use_adls adls_avail overwrite : Bool)
    (copyOf : String → String) (store : OrgStore) (items : List String) :
    (drive ⟨true, tag_only, use_adls, adls_avail, overwrite, none, copyOf⟩ store items).store =
      store ∧
    (drive ⟨true, tag_only, use_adls, adls_avail, overwrite, none, copyOf⟩ store items).ops =
      [] ∧
    (drive ⟨true, tag_only, use_adls, adls_avail, overwrite, none, copyOf⟩
        store items).recs.length =
      (items.filter (fun n => !endsWithSlash n)).length := by
  have h := drive_loop_dry_pure tag_only use_adls adls_avail overwrite copyOf items store [] [] 0
  simpa [drive] using h

/-- C8: per-item failures never abort the run.  First, for every flag
combination (with no item cap), every store, and every listing, the driver
writes exactly one audit record per non-directory item — also when items fail.
Second, whenever processing one item raises an error `e`, the driver catches
it, writes for that item exactly one record `errRecord name e` — source path,
empty destination, action `skip`, status `error`, the reason `e` — and then
continues with the rest of the listing from the store state the failed item
left behind. -/
theorem driver_error_isolation (d t u a o : Bool) (c : String → String) :
    (∀ (store : OrgStore) (items : List String),
      (drive ⟨d, t, u, a, o, none, c⟩ store items).recs.length =
        (items.filter (fun n => !endsWithSlash n)).length) ∧
    (∀ (store : OrgStore) (name : String) (rest : List String) (e : String),
      (process_blob ⟨d, t, u, a, o, none, c⟩ store name).err = some e →
      (drive ⟨d, t, u, a, o, none, c⟩ store (name :: rest)).recs =
        errRecord name e ::
          (drive ⟨d, t, u, a, o, none, c⟩
            (process_blob ⟨d, t, u, a, o, none, c⟩ store name).store rest).recs) := by
  constructor
  · intro store items
    have h := drive_loop_records_total d t u a o c items store [] [] 0
    simpa [drive] using h
  · intro store name rest e hp
    show (drive_loop ⟨d, t, u, a, o, none, c⟩ store [] [] 0 (name :: rest)).recs = _
    simp only [drive_loop, hp]
    rw [drive_loop_shift]
    simp [drive]

/-- Witness for `driver_error_isolation`: a listed item that is missing from the
store (the copy raises), in live mode; the run produces exactly its error
record and does not abort. -/
theorem driver_error_isolation_witness :
    (drive ⟨false, false, false, false, false, none, fun s => s⟩ [] ["incoming/x.pdf"]).recs =
      [errRecord "incoming/x.pdf" "copy source not found"] := by
  have h := (driver_error_isolation false false false false false (fun s => s)).2
    [] "incoming/x.pdf" [] "copy source not found" (by decide)
  simpa [drive, drive_loop] using h

/-- C9 (amended): for every item processed with status ok, the `action` field of
the audit record equals `_determine_action` of the run flags; and provided an
ADLS client is available whenever `use_adls` is set, that recorded action also
matches the mutations actually performed (`dry-run` = none, `tag-only` = tags
on the source, `rename` = the ADLS rename path, `copy+delete` = the fallback).
When `use_adls` is set without an available ADLS client, the record still says
`rename` while the copy-then-delete fallback ran
(`audit_action_misreports_rename`). -/
theorem audit_action_matches_flags (d t u a o : Bool) (c : String → String) (m : Option Nat)
    (store : OrgStore) (name : String) (r : AuditRecord)
    (hadls : u = true → a = true)
    (hrec : (process_blob ⟨d, t, u, a, o, m, c⟩ store name).record = some r) :
    r.action = determine_action d t u ∧
    actionMatchesOps r.action (process_blob ⟨d, t, u, a, o, m, c⟩ store name).ops
      name r.destination_path r.tags := by
  by_cases hdir : endsWithSlash name
  · exfalso; simp [process_blob, hdir] at hrec
  · simp only [process_blob, hdir, Bool.false_eq_true, if_false] at hrec ⊢
    revert hrec
    cases happ : (apply_changes ⟨d, t, u, a, o, m, c⟩ store name
        (detect_destination_path
          (classify (lastComponent name) (safe_text_preview store name)) (lastComponent name))
        (classify (lastComponent name) (safe_text_preview store name))).err with
    | some e =>
      intro hrec
      exfalso
      simp at hrec
    | none =>
      intro hrec
      dsimp only at hrec ⊢
      have hinj := Option.some.inj hrec
      subst hinj
      exact ⟨rfl, apply_changes_ops_shape d t u a o c m store name _ _ hadls happ⟩

/-- Witness for `audit_action_matches_flags`: a live copy-then-delete run over
one blob; the ok record's action is `copy+delete` and matches the performed
copy, delete and tag-set calls. -/
theorem audit_action_matches_flags_witness :
    ("copy+delete" : String) = determine_action false false false ∧
    actionMatchesOps "copy+delete"
      (process_blob ⟨false, false, false, false, false, none, fun s => s⟩
        [("incoming/2020_ACC_Guideline.pdf", ⟨"data", []⟩)]
        "incoming/2020_ACC_Guideline.pdf").ops
      "incoming/2020_ACC_Guideline.pdf"
      "education/guideline/cardiology_general/2020/ACC/2020_ACC_Guideline.pdf"
      [("docType", "guideline"), ("condition", "cardiology_general"), ("source_org", "ACC"),
       ("year", "2020"), ("audience", "clinician"), ("evidence_level", "guideline"),
       ("retention_class", "refresh_annual"), ("phi", "no"), ("needs_review", "no")] :=
  audit_action_matches_flags false false false false false (fun s => s) none
    [("incoming/2020_ACC_Guideline.pdf", ⟨"data", []⟩)] "incoming/2020_ACC_Guideline.pdf"
    ⟨"incoming/2020_ACC_Guideline.pdf",
     "education/guideline/cardiology_general/2020/ACC/2020_ACC_Guideline.pdf",
     "copy+delete", "ok", "",
     [("docType", "guideline"), ("condition", "cardiology_general"), ("source_org", "ACC"),
      ("year", "2020"), ("audience", "clinician"), ("evidence_level", "guideline"),
      ("retention_class", "refresh_annual"), ("phi", "no"), ("needs_review", "no")]⟩
    (fun h => h) (by decide)

/-- C10: condition classification tests each canonical condition code by
case-insensitive substring containment in the filename, in the fixed order of
`CONDITIONS`, and takes the first code whose lowercase form occurs anywhere in
the lowercased filename; in particular every filename containing the letters
`af`, with none of the earlier-listed codes (ACS, STEMI, NSTEMI, OMI) occurring
as a substring, is classified condition `AF`. -/
theorem condition_first_match_order :
    (∀ f preview c,
        CONDITIONS.find? (fun cond => strContains (lowerStr f) (lowerStr cond)) = some c →
        tgetOpt (classify f preview) "condition" = some c) ∧
    (∀ f preview,
        strContains (lowerStr f) "af" = true →
        strContains (lowerStr f) "acs" = false →
        strContains (lowerStr f) "stemi" = false →
        strContains (lowerStr f) "nstemi" = false →
        strContains (lowerStr f) "omi" = false →
        tgetOpt (classify f preview) "condition" = some "AF") := by
  constructor
  · intro f preview c hfind
    rw [classify_condition_eq]
    unfold conditionHeuristic
    rw [hfind]
  · intro f preview haf hacs hstemi hnstemi homi
    rw [classify_condition_eq]
    unfold conditionHeuristic
    have e1 : lowerStr "ACS" = "acs" := rfl
    have e2 : lowerStr "STEMI" = "stemi" := rfl
    have e3 : lowerStr "NSTEMI" = "nstemi" := rfl
    have e4 : lowerStr "OMI" = "omi" := rfl
    have e5 : lowerStr "AF" = "af" := rfl
    have hfind : CONDITIONS.find? (fun cond => strContains (lowerStr f) (lowerStr cond)) =
        some "AF" := by
      simp only [CONDITIONS, List.find?, e1, e2, e3, e4, e5, hacs, hstemi, hnstemi, homi, haf]
    rw [hfind]

/-- Witness for `condition_first_match_order`: the letters `af` inside the
unrelated word of `management_af_2021.pdf` — with no earlier-listed code
present — classify the file as condition `AF`. -/
theorem condition_first_match_order_witness :
    strContains (lowerStr "management_af_2021.pdf") "af" = true ∧
    tgetOpt (classify "management_af_2021.pdf" "") "condition" = some "AF" :=
  ⟨by decide, condition_first_match_order.2 "management_af_2021.pdf" ""
    (by decide) (by decide) (by decide) (by decide) (by decide)⟩
